import Mathlib

/-!
Shallow embedding of `src/hangar/arrayset.py`: the `Arraysets` catalog class of
the hangar repository.  Pure data is translated to Lean structures; the mutable
object state (name→accessor dict, reentrancy counters, the lmdb record store
and hash store) is threaded explicitly; raising an exception is modelled by
`Except`: an operation that raises returns `.error e` and hands no new state
back, matching the source paths that raise before mutating anything.

External collaborators of this file (lmdb, `records.parsing`, `records.queries`,
`backends`, `columns`, `utils`) are not part of `src/`; every definition that
stands in for one of them carries a doc comment starting with
`Modelled from the spec:` and follows the interface description in the spec.
-/

namespace Hangar

/-- Variant of an accessor: one array per key (`Sample`) or a nested mapping
(`Subsample`), selected by the descriptor's `contains_subsamples` flag. -/
inductive Variant where
  | sample
  | subsample
deriving DecidableEq

/-- Checkout mode flag: `'r'` (read) or `'a'` (write-enabled). -/
inductive Mode where
  | r
  | a
deriving DecidableEq

/-- Python exception taxonomy used by `arrayset.py`.  `keyError` carries the
list of names interpolated into the message so that "which names are reported"
is a checkable field. -/
inductive PyError where
  | typeError (msg : String)
  | permissionError (msg : String)
  | valueError (msg : String)
  | lookupError (msg : String)
  | keyError (reported : List String) (msg : String)
deriving DecidableEq

/-- A capability violation is a `PermissionError`; everything else (including
the `TypeError` that results from calling a nulled method slot) is not. -/
def PyError.isCapabilityViolation : PyError → Bool
  | .permissionError _ => true
  | _ => false

/-- Model of a `numpy.ndarray` as far as `arrayset.py` inspects one: its shape,
its dtype code (`dtype.num`) and the C-contiguity flag. -/
structure NDArray where
  shape : List Nat
  dtypeNum : Nat
  c_contiguous : Bool
deriving DecidableEq

/-- Number of dimensions, `ndarray.ndim`. -/
def NDArray.ndim (a : NDArray) : Nat := a.shape.length

/-- Number of elements, `ndarray.size`. -/
def NDArray.size (a : NDArray) : Nat := a.shape.prod

/-- Modelled from the spec: `np.zeros(shape, dtype)` produces a fresh
row-major-contiguous array of the given shape and element type. -/
def npZeros (shape : List Nat) (dtype : Nat) : NDArray :=
  { shape := shape, dtypeNum := dtype, c_contiguous := true }

/-- Association-list model of a Python `dict` (insertion ordered, unique keys).
Lookup returns the entry stored under `k`, if any. -/
def dictLookup {κ α : Type} [DecidableEq κ] : List (κ × α) → κ → Option α
  | [], _ => none
  | (k', v) :: rest, k => if k' = k then some v else dictLookup rest k

/-- `d[k] = v` on a Python dict: replace in place if the key is present,
append otherwise. -/
def dictInsert {κ α : Type} [DecidableEq κ] : List (κ × α) → κ → α → List (κ × α)
  | [], k, v => [(k, v)]
  | (k', v') :: rest, k, v =>
    if k' = k then (k, v) :: rest else (k', v') :: dictInsert rest k v

/-- `del d[k]` on a Python dict: drop the entry stored under `k`. -/
def dictRemove {κ α : Type} [DecidableEq κ] : List (κ × α) → κ → List (κ × α)
  | [], _ => []
  | (k', v') :: rest, k =>
    if k' = k then rest else (k', v') :: dictRemove rest k

/-- Byte strings are the lmdb key type. -/
def Key : Type := List Nat
deriving DecidableEq

/-- Modelled from the spec: deterministic byte encoding of a name (the key
codecs in `records.parsing` encode ascii names as their byte sequences). -/
def strBytes (s : String) : List Nat := s.data.map Char.toNat

/-- Modelled from the spec: `records.parsing.arrayset_record_count_range_key`.
A count-range key prefix per arrayset under which all of that arrayset's
sample-location records live contiguously; the name is followed by a separator
byte (`58`, the colon) that is outside the name charset, so the range of one
arrayset never overlaps the range of another. -/
def arrayset_record_count_range_key (name : String) : Key :=
  97 :: strBytes name ++ [58]

/-- Modelled from the spec: `records.parsing.arrayset_record_schema_db_key_from_raw_key`.
Arrayset schema records are keyed by a deterministic encoding of the name in a
namespace (leading byte `115`) disjoint from the count-range namespace. -/
def arrayset_record_schema_db_key_from_raw_key (name : String) : Key :=
  115 :: strBytes name

/-- Modelled from the spec: `utils.is_suitable_user_key` restricted to the
documented name rule: non-empty, at most 64 characters, charset
`[A-Za-z0-9._-]` (byte ranges 65-90, 97-122, 48-57 and bytes 46, 95, 45). -/
def suitableChar (c : Char) : Bool :=
  (65 ≤ c.toNat && c.toNat ≤ 90) || (97 ≤ c.toNat && c.toNat ≤ 122) ||
  (48 ≤ c.toNat && c.toNat ≤ 57) || c.toNat = 46 || c.toNat = 95 || c.toNat = 45

/-- Modelled from the spec: `utils.is_suitable_user_key`. -/
def is_suitable_user_key (name : String) : Bool :=
  decide (0 < name.length) && decide (name.length ≤ 64) && name.data.all suitableChar

/-- Modelled from the spec: `utils.is_ascii`. -/
def is_ascii (name : String) : Bool :=
  name.data.all (fun c => c.toNat ≤ 127)

/-- Backend selection result of the external resolver: a backend format code
and an opaque option token. -/
structure BackendSpec where
  backend : Nat
  opts : Nat
deriving DecidableEq

/-- Modelled from the spec: the Backend Option Resolver
(`backends.parse_user_backend_opts`) resolves user hints against the prototype
and fails with an invalid-option error when the hint names an unregistered
backend; when no hint is given a backend is auto-selected. -/
def parse_user_backend_opts (backend_opts : Option Nat) (_prototype : NDArray)
    (_named_samples : Bool) (_variable_shape : Bool) : Except PyError BackendSpec :=
  match backend_opts with
  | none => Except.ok { backend := 0, opts := 0 }
  | some code =>
    if code < 4 then Except.ok { backend := code, opts := 0 }
    else Except.error (PyError.valueError "invalid backend specification")

/-- Modelled from the spec: `records.hashmachine.schema_hash_digest` is a
deterministic content hash over all schema fields; collision resistance is
modelled as injectivity, so the digest is the tuple of hashed fields itself. -/
structure SchemaHash where
  shape : List Nat
  size : Nat
  dtype_num : Nat
  named_samples : Bool
  variable_shape : Bool
  backend_code : Nat
  backend_opts : Nat
deriving DecidableEq

/-- Modelled from the spec: the schema content hash function. -/
def schema_hash_digest (shape : List Nat) (size : Nat) (dtype_num : Nat)
    (named_samples : Bool) (variable_shape : Bool)
    (backend_code : Nat) (backend_opts : Nat) : SchemaHash :=
  { shape := shape, size := size, dtype_num := dtype_num,
    named_samples := named_samples, variable_shape := variable_shape,
    backend_code := backend_code, backend_opts := backend_opts }

/-- Decoded schema record, the argument list of
`records.parsing.arrayset_record_schema_db_val_from_raw_val`; the codec is
round-trip exact, so the record is modelled as the decoded form itself. -/
structure SchemaRec where
  schema_hash : SchemaHash
  schema_is_var : Bool
  schema_max_shape : List Nat
  schema_dtype : Nat
  schema_is_named : Bool
  schema_default_backend : Nat
  schema_default_backend_opts : Nat
  schema_contains_subsamples : Bool
deriving DecidableEq

/-- Value stored in the records store: a schema record or opaque bytes
(sample-location records). -/
inductive StoreVal where
  | schema (rec : SchemaRec)
  | raw (bs : List Nat)
deriving DecidableEq

/-- Lexicographic strict order on byte-string keys: the order in which lmdb
keeps and iterates keys. -/
def keyLt : List Nat → List Nat → Bool
  | [], [] => false
  | [], _ :: _ => true
  | _ :: _, [] => false
  | a :: as, b :: bs => if a < b then true else if b < a then false else keyLt as bs

/-- lmdb `put` with default `overwrite=True` on a store kept sorted by key. -/
def storePut : List (Key × StoreVal) → Key → StoreVal → List (Key × StoreVal)
  | [], k, v => [(k, v)]
  | (k', v') :: rest, k, v =>
    if keyLt k k' then (k, v) :: (k', v') :: rest
    else if k = k' then (k, v) :: rest
    else (k', v') :: storePut rest k v

/-- Exact-key read from the records store. -/
def storeGet : List (Key × StoreVal) → Key → Option StoreVal
  | [], _ => none
  | (k', v') :: rest, k => if k' = k then some v' else storeGet rest k

/-- lmdb `txn.delete(key)`: drop the entry stored under the exact key. -/
def storeDeleteKey : List (Key × StoreVal) → Key → List (Key × StoreVal)
  | [], _ => []
  | (k', v') :: rest, k =>
    if k' = k then rest else (k', v') :: storeDeleteKey rest k

/-- Cursor loop body of `Arraysets.delete`: starting at the cursor position,
delete the current record while its key starts with the range key, stopping at
the first key that does not. -/
def delRun (p : Key) : List (Key × StoreVal) → List (Key × StoreVal)
  | [] => []
  | kv :: rest =>
    if List.isPrefixOf p kv.1 then delRun p rest else kv :: rest

/-- The full cursor scan of `Arraysets.delete`: `cursor.set_range(p)` positions
at the first key not below `p` (on a sorted store: after the entries whose key
is `keyLt` `p`), then records are deleted while the prefix matches. -/
def scanDeleteRange (p : Key) (st : List (Key × StoreVal)) : List (Key × StoreVal) :=
  st.takeWhile (fun kv => keyLt kv.1 p) ++ delRun p (st.dropWhile (fun kv => keyLt kv.1 p))

/-- Modelled from the spec: a Sample/Subsample accessor (`columns` module) as
far as the catalog interacts with one: its variant, its read/write binding,
the schema it was generated for, its stored samples, and the nesting counter
it keeps for the scoped-access protocol. -/
structure Accessor where
  variant : Variant
  mode : Mode
  aset_name : String
  schema : SchemaRec
  samples : List (Nat × NDArray)
  isConmanCounter : Nat
deriving DecidableEq

/-- Accessor reentrancy flag, compare `ModifierTypes._is_conman`. -/
def Accessor.conman (a : Accessor) : Bool := a.isConmanCounter ≠ 0

/-- Modelled from the spec: the accessor interface method `add(key, array)`
stores the array under the key. -/
def Accessor.add (a : Accessor) (id : Nat) (v : NDArray) : Accessor :=
  { a with samples := dictInsert a.samples id v }

/-- Modelled from the spec: `Sample().generate_writer` produces a write-bound
Sample accessor for the schema. -/
def Sample_generate_writer (name : String) (spec : SchemaRec) : Accessor :=
  { variant := Variant.sample, mode := Mode.a, aset_name := name,
    schema := spec, samples := [], isConmanCounter := 0 }

/-- Modelled from the spec: `Subsample().generate_writer` produces a
write-bound Subsample accessor for the schema. -/
def Subsample_generate_writer (name : String) (spec : SchemaRec) : Accessor :=
  { variant := Variant.subsample, mode := Mode.a, aset_name := name,
    schema := spec, samples := [], isConmanCounter := 0 }

/-- The `Arraysets` object state: checkout mode, the name→accessor dict, the
catalog's own reentrancy counter, the two stores reachable through its
transaction context (records store `dataStore`, hash store `hashStore`), and
the sample-name generator state (`generate_sample_name` is modelled as a
monotone counter, its ids being opaque and unique within the checkout). -/
structure Arraysets where
  mode : Mode
  arraysets : List (String × Accessor)
  isConmanCounter : Nat
  dataStore : List (Key × StoreVal)
  hashStore : List (SchemaHash × SchemaRec)
  nextSampleId : Nat
deriving DecidableEq

namespace Arraysets

/-- Property `_is_conman`. -/
def isConman (c : Arraysets) : Bool := c.isConmanCounter ≠ 0

/-- Method `_any_is_conman`: the catalog or any contained accessor is
currently open in a context manager. -/
def anyIsConman (c : Arraysets) : Bool :=
  c.isConman || c.arraysets.any (fun kv => kv.2.conman)

/-- Method `__contains__`. -/
def containsName (c : Arraysets) (k : String) : Bool :=
  (dictLookup c.arraysets k).isSome

/-- Method `__len__`. -/
def size (c : Arraysets) : Nat := c.arraysets.length

/-- Method `keys`. -/
def names (c : Arraysets) : List String := c.arraysets.map Prod.fst

/-- Method `get`: return the accessor stored under `name`, or raise `KeyError`
naming the missing arrayset. -/
def get (c : Arraysets) (name : String) : Except PyError Accessor :=
  match dictLookup c.arraysets name with
  | some a => Except.ok a
  | none => Except.error (PyError.keyError [name] "No arrayset exists with name")

/-- Method `__setitem__`: unconditionally `raise PermissionError`.  Because
Python looks special methods up on the class, the read-mode instance-level
nulling done in `__setup` does not change the behaviour of the statement
`catalog[name] = value`: it raises `PermissionError` in both modes. -/
def store_subscript (_c : Arraysets) (_key : String) (_value : NDArray) :
    Except PyError Unit :=
  Except.error (PyError.permissionError "Not allowed! To add a arrayset use init_arrayset method.")

/-- Resolution of the sample template inside `init_arrayset`: a provided
prototype must be C contiguous; otherwise `shape` and `dtype` must both be
present and the template is `np.zeros(shape, dtype)`; otherwise the call
fails.  (The `isinstance(prototype, np.ndarray)` branch is unrepresentable in
the typed embedding: every `NDArray` argument is an ndarray.) -/
def resolveTemplate (shape : Option (List Nat)) (dtype : Option Nat)
    (prototype : Option NDArray) : Except PyError NDArray :=
  match prototype with
  | some p =>
    if p.c_contiguous then Except.ok p
    else Except.error (PyError.valueError "prototype must be C contiguous array")
  | none =>
    match shape, dtype with
    | some s, some d => Except.ok (npZeros s d)
    | _, _ => Except.error (PyError.valueError "shape and dtype required if no prototype set")

/-- Message of the `PermissionError` raised by the conman guard. -/
def conmanMsg : String :=
  "Not allowed while any arraysets class is opened in a context manager"

/-- Method `init_arrayset`, translated check by check from the source: conman
guard, name validity, name conflict, template resolution, shape bounds,
backend resolution — and only after all checks pass, the two store writes
(schema record put, hash record put without overwrite) followed by accessor
generation (dispatch on `contains_subsamples`) and insertion into the
name→accessor dict; the new accessor is returned (the source returns
`self.get(name)`, which retrieves exactly the accessor just inserted). -/
def init_arrayset (c : Arraysets) (name : String) (shape : Option (List Nat))
    (dtype : Option Nat) (prototype : Option NDArray) (named_samples : Bool)
    (variable_shape : Bool) (contains_subsamples : Bool)
    (backend_opts : Option Nat) : Except PyError (Arraysets × Accessor) :=
  if c.anyIsConman then
    Except.error (PyError.permissionError conmanMsg)
  else if !(is_suitable_user_key name && is_ascii name) then
    Except.error (PyError.valueError "Arrayset name provided is invalid")
  else if c.containsName name then
    Except.error (PyError.lookupError "Arrayset already exists with name")
  else
    match resolveTemplate shape dtype prototype with
    | Except.error e => Except.error e
    | Except.ok proto =>
      if proto.shape.contains 0 || decide (31 < proto.ndim) then
        Except.error (PyError.valueError "Invalid shape specification")
      else
        match parse_user_backend_opts backend_opts proto named_samples variable_shape with
        | Except.error e => Except.error e
        | Except.ok beopts =>
          let schema_hash := schema_hash_digest proto.shape proto.size proto.dtypeNum
            named_samples variable_shape beopts.backend beopts.opts
          let asetSchemaKey := arrayset_record_schema_db_key_from_raw_key name
          let asetSchemaVal : SchemaRec :=
            { schema_hash := schema_hash, schema_is_var := variable_shape,
              schema_max_shape := proto.shape, schema_dtype := proto.dtypeNum,
              schema_is_named := named_samples,
              schema_default_backend := beopts.backend,
              schema_default_backend_opts := beopts.opts,
              schema_contains_subsamples := contains_subsamples }
          let dataStore' := storePut c.dataStore asetSchemaKey (StoreVal.schema asetSchemaVal)
          let hashStore' :=
            if (dictLookup c.hashStore schema_hash).isSome then c.hashStore
            else dictInsert c.hashStore schema_hash asetSchemaVal
          let modifier :=
            if contains_subsamples then Subsample_generate_writer name asetSchemaVal
            else Sample_generate_writer name asetSchemaVal
          let c' : Arraysets :=
            { c with dataStore := dataStore', hashStore := hashStore',
                     arraysets := dictInsert c.arraysets name modifier }
          Except.ok (c', modifier)

/-- Method `delete`, translated from the source: conman guard, existence
check (raised inside the write transaction, which then commits empty), close
the accessor and drop it from the dict, run the cursor range scan over the
records store, then delete the schema record; the removed name is returned. -/
def delete (c : Arraysets) (aset_name : String) : Except PyError (Arraysets × String) :=
  if c.anyIsConman then
    Except.error (PyError.permissionError conmanMsg)
  else if !(c.containsName aset_name) then
    Except.error (PyError.keyError [aset_name] "Cannot remove. Key does not exist.")
  else
    let arraysets' := dictRemove c.arraysets aset_name
    let dataStore1 := scanDeleteRange (arrayset_record_count_range_key aset_name) c.dataStore
    let dataStore2 := storeDeleteKey dataStore1 (arrayset_record_schema_db_key_from_raw_key aset_name)
    Except.ok ({ c with arraysets := arraysets', dataStore := dataStore2 }, aset_name)

/-- Method `__delitem__` as dispatched by `del catalog[name]`: Python looks
the special method up on the class, so the body always runs — it checks the
aggregate conman state and then calls `self.delete`, which in read mode is the
instance attribute `None` set by `__setup`, so the call raises `TypeError`. -/
def del_subscript (c : Arraysets) (key : String) : Except PyError (Arraysets × String) :=
  if c.anyIsConman then
    Except.error (PyError.permissionError conmanMsg)
  else if c.mode = Mode.r then
    Except.error (PyError.typeError "NoneType object is not callable")
  else
    c.delete key

/-- Delegated single-sample insertion step of `multi_add`:
`self._arraysets[k].add(data_name, v)`.  The `none` branch is unreachable in
`multi_add`, which verifies membership of every key first. -/
def addToAset (c : Arraysets) (k : String) (id : Nat) (v : NDArray) : Arraysets :=
  match dictLookup c.arraysets k with
  | some a => { c with arraysets := dictInsert c.arraysets k (a.add id v) }
  | none => c

/-- The delegation loop of `multi_add`: `for k, v in mapping.items():
self._arraysets[k].add(data_name, v)`. -/
def foldAdds (id : Nat) (c : Arraysets) : List (String × NDArray) → Arraysets
  | [] => c
  | kv :: rest => foldAdds id (c.addToAset kv.1 id kv.2) rest

/-- Method `multi_add`, translated from the source.  The `ExitStack` context
entered at the top increments and, on every exit path, restores the conman
counters, so its net effect on the state is nil and only the data effects are
threaded.  The membership check precedes the id generation and every delegated
insertion; its `KeyError` message interpolates `list(mapping.keys())`, the
full key list of the mapping. -/
def multi_add (c : Arraysets) (mapping : List (String × NDArray)) :
    Except PyError (Arraysets × Nat) :=
  if !(mapping.all (fun kv => c.containsName kv.1)) then
    Except.error (PyError.keyError (mapping.map Prod.fst) "not all keys exist as arrayset names")
  else
    let data_name := c.nextSampleId
    let c1 := { c with nextSampleId := c.nextSampleId + 1 }
    Except.ok (foldAdds data_name c1 mapping, data_name)

/-- Attribute call `catalog.init_arrayset(...)`: `__setup` nulls the slot in
read mode, so the attribute found on a read-mode instance is `None` and the
call raises `TypeError` before any argument is looked at. -/
def call_init_arrayset (c : Arraysets) (name : String) (shape : Option (List Nat))
    (dtype : Option Nat) (prototype : Option NDArray) (named_samples : Bool)
    (variable_shape : Bool) (contains_subsamples : Bool)
    (backend_opts : Option Nat) : Except PyError (Arraysets × Accessor) :=
  if c.mode = Mode.r then
    Except.error (PyError.typeError "NoneType object is not callable")
  else
    c.init_arrayset name shape dtype prototype named_samples variable_shape
      contains_subsamples backend_opts

/-- Attribute call `catalog.delete(...)` through the possibly nulled slot. -/
def call_delete (c : Arraysets) (aset_name : String) : Except PyError (Arraysets × String) :=
  if c.mode = Mode.r then
    Except.error (PyError.typeError "NoneType object is not callable")
  else
    c.delete aset_name

/-- Attribute call `catalog.multi_add(...)` through the possibly nulled slot. -/
def call_multi_add (c : Arraysets) (mapping : List (String × NDArray)) :
    Except PyError (Arraysets × Nat) :=
  if c.mode = Mode.r then
    Except.error (PyError.typeError "NoneType object is not callable")
  else
    c.multi_add mapping

/-- Dispatch on `schema_contains_subsamples` shared by `init_arrayset` and the
two factories. -/
def dispatchVariant (spec : SchemaRec) : Variant :=
  if spec.schema_contains_subsamples then Variant.subsample else Variant.sample

/-- Accessor-building loop shared by the two factories: for each discovered
schema descriptor, dispatch on `schema_contains_subsamples` to the given
generator (modelling the external Sample/Subsample generator pair, which may
fail); a generator failure propagates and aborts construction. -/
def buildAccessors (gen : Variant → String → SchemaRec → Except PyError Accessor) :
    List (String × SchemaRec) → Except PyError (List (String × Accessor))
  | [] => Except.ok []
  | (n, spec) :: rest =>
    match gen (dispatchVariant spec) n spec with
    | Except.error e => Except.error e
    | Except.ok acc =>
      match buildAccessors gen rest with
      | Except.error e => Except.error e
      | Except.ok others => Except.ok ((n, acc) :: others)

/-- Class method `_from_staging_area`: query every schema descriptor recorded
in the staging store (`specs` is the result of the external
`RecordQuery.schema_specs`), generate one write-bound accessor per descriptor
through the generator, and construct the catalog in write mode. -/
def from_staging_area (genWriter : Variant → String → SchemaRec → Except PyError Accessor)
    (specs : List (String × SchemaRec)) (dataStore : List (Key × StoreVal))
    (hashStore : List (SchemaHash × SchemaRec)) : Except PyError Arraysets :=
  match buildAccessors genWriter specs with
  | Except.error e => Except.error e
  | Except.ok asets =>
    Except.ok { mode := Mode.a, arraysets := asets, isConmanCounter := 0,
                dataStore := dataStore, hashStore := hashStore, nextSampleId := 0 }

/-- Class method `_from_commit`: like `from_staging_area` but over a commit
store's descriptors, requesting read-bound accessors and constructing the
catalog in read mode. -/
def from_commit (genReader : Variant → String → SchemaRec → Except PyError Accessor)
    (specs : List (String × SchemaRec)) (dataStore : List (Key × StoreVal))
    (hashStore : List (SchemaHash × SchemaRec)) : Except PyError Arraysets :=
  match buildAccessors genReader specs with
  | Except.error e => Except.error e
  | Except.ok asets =>
    Except.ok { mode := Mode.r, arraysets := asets, isConmanCounter := 0,
                dataStore := dataStore, hashStore := hashStore, nextSampleId := 0 }

end Arraysets

/-- Content hash computed by `init_arrayset` for a template built from
`shape`/`dtype` with auto-selected backend (no user backend hint). -/
def defaultSchemaHash (s : List Nat) (d : Nat) (ns vs : Bool) : SchemaHash :=
  schema_hash_digest s s.prod d ns vs 0 0

/-- Schema record persisted by `init_arrayset` for a template built from
`shape`/`dtype` with auto-selected backend (no user backend hint). -/
def defaultSchemaRec (s : List Nat) (d : Nat) (ns vs cs : Bool) : SchemaRec :=
  { schema_hash := defaultSchemaHash s d ns vs, schema_is_var := vs,
    schema_max_shape := s, schema_dtype := d, schema_is_named := ns,
    schema_default_backend := 0, schema_default_backend_opts := 0,
    schema_contains_subsamples := cs }

/-- Accessor generated by `init_arrayset` for such a template. -/
def defaultModifier (name : String) (s : List Nat) (d : Nat) (ns vs cs : Bool) : Accessor :=
  if cs then Subsample_generate_writer name (defaultSchemaRec s d ns vs cs)
  else Sample_generate_writer name (defaultSchemaRec s d ns vs cs)

/-- Catalog state produced by a successful `init_arrayset` from `shape` and
`dtype` with auto-selected backend: schema record written (with overwrite),
hash record written without overwrite, accessor inserted. -/
def initResultCatalog (c : Arraysets) (name : String) (s : List Nat) (d : Nat)
    (ns vs cs : Bool) : Arraysets :=
  { c with
    dataStore := storePut c.dataStore (arrayset_record_schema_db_key_from_raw_key name)
      (StoreVal.schema (defaultSchemaRec s d ns vs cs)),
    hashStore :=
      if (dictLookup c.hashStore (defaultSchemaHash s d ns vs)).isSome then c.hashStore
      else dictInsert c.hashStore (defaultSchemaHash s d ns vs) (defaultSchemaRec s d ns vs cs),
    arraysets := dictInsert c.arraysets name (defaultModifier name s d ns vs cs) }

/-- Schema hash of the fixture descriptor (shape `[2]`, dtype code 5, named
samples, fixed shape, backend 0). -/
def testHash : SchemaHash := schema_hash_digest [2] 2 5 true false 0 0

/-- Fixture schema record. -/
def testRec : SchemaRec :=
  { schema_hash := testHash, schema_is_var := false, schema_max_shape := [2],
    schema_dtype := 5, schema_is_named := true, schema_default_backend := 0,
    schema_default_backend_opts := 0, schema_contains_subsamples := false }

/-- Fixture schema record with `contains_subsamples` set. -/
def testRecSub : SchemaRec :=
  { testRec with schema_contains_subsamples := true }

/-- Fixture read-bound accessor for arrayset `x`. -/
def accRX : Accessor :=
  { variant := Variant.sample, mode := Mode.r, aset_name := "x",
    schema := testRec, samples := [], isConmanCounter := 0 }

/-- Fixture read-mode catalog holding one arrayset `x`. -/
def rcat : Arraysets :=
  { mode := Mode.r, arraysets := [("x", accRX)], isConmanCounter := 0,
    dataStore := [], hashStore := [], nextSampleId := 0 }

/-- Fixture empty write-mode catalog. -/
def wcat0 : Arraysets :=
  { mode := Mode.a, arraysets := [], isConmanCounter := 0,
    dataStore := [], hashStore := [], nextSampleId := 0 }

/-- Fixture write-bound accessor for arrayset `x`. -/
def accWX : Accessor := Sample_generate_writer "x" testRec

/-- Fixture write-bound accessor for arrayset `x2`. -/
def accWX2 : Accessor := Sample_generate_writer "x2" testRec

/-- Fixture write-mode catalog holding arraysets `x` and `x2`, whose records
store holds one sample record and one schema record per arrayset, in lmdb key
order. -/
def wcatX : Arraysets :=
  { mode := Mode.a, arraysets := [("x", accWX), ("x2", accWX2)], isConmanCounter := 0,
    dataStore := [([97, 120, 50, 58, 107], StoreVal.raw [1]),
                  ([97, 120, 58, 107], StoreVal.raw [2]),
                  ([115, 120], StoreVal.schema testRec),
                  ([115, 120, 50], StoreVal.schema testRec)],
    hashStore := [(testHash, testRec)], nextSampleId := 0 }

/-- Fixture write-mode catalog like `wcatX` but currently held open in a
context manager (nonzero catalog counter). -/
def ccat : Arraysets :=
  { wcatX with isConmanCounter := 1 }

/-- Fixture sample array matching the fixture schema. -/
def arr1 : NDArray := { shape := [2], dtypeNum := 5, c_contiguous := true }

/-- Second fixture sample array. -/
def arr2 : NDArray := { shape := [2], dtypeNum := 5, c_contiguous := true }

/-- Fixture generator standing for the external Sample/Subsample writer
factory in the reconstruction witness. -/
def wgen (v : Variant) (n : String) (s : SchemaRec) : Except PyError Accessor :=
  Except.ok { variant := v, mode := Mode.a, aset_name := n, schema := s,
              samples := [], isConmanCounter := 0 }

/-- Fixture generator standing for the external reader factory. -/
def rgen (v : Variant) (n : String) (s : SchemaRec) : Except PyError Accessor :=
  Except.ok { variant := v, mode := Mode.r, aset_name := n, schema := s,
              samples := [], isConmanCounter := 0 }

section DictLemmas

variable {κ α : Type} [DecidableEq κ]

theorem dictLookup_insert_self (d : List (κ × α)) (k : κ) (v : α) :
    dictLookup (dictInsert d k v) k = some v := by
  induction d with
  | nil => simp [dictInsert, dictLookup]
  | cons hd tl ih =>
    obtain ⟨k', v'⟩ := hd
    by_cases h : k' = k
    · simp [dictInsert, dictLookup, h]
    · simp [dictInsert, dictLookup, h, ih]

theorem dictLookup_insert_ne (d : List (κ × α)) (k k' : κ) (v : α) (hne : k' ≠ k) :
    dictLookup (dictInsert d k v) k' = dictLookup d k' := by
  have hne' : ¬(k = k') := fun h => hne h.symm
  induction d with
  | nil => simp [dictInsert, dictLookup, hne']
  | cons hd tl ih =>
    obtain ⟨k0, v0⟩ := hd
    by_cases h : k0 = k
    · subst h
      simp only [dictInsert, if_pos rfl, dictLookup, if_neg hne']
    · simp only [dictInsert, if_neg h, dictLookup]
      by_cases h' : k0 = k'
      · simp [h']
      · simp [h', ih]

theorem dictLookup_lt_none (d : List (Nat × α)) (n : Nat)
    (h : ∀ s ∈ d, s.1 < n) : dictLookup d n = none := by
  induction d with
  | nil => rfl
  | cons hd tl ih =>
    have h1 : hd.1 < n := h hd (List.mem_cons_self hd tl)
    have h2 : hd.1 ≠ n := Nat.ne_of_lt h1
    obtain ⟨k0, v0⟩ := hd
    simp only [dictLookup, if_neg h2]
    exact ih (fun s hs => h s (List.mem_cons_of_mem _ hs))

theorem dictRemove_not_mem (d : List (κ × α)) (k : κ)
    (h : (d.map Prod.fst).Nodup) : k ∉ (dictRemove d k).map Prod.fst := by
  induction d with
  | nil => simp [dictRemove]
  | cons hd tl ih =>
    obtain ⟨k0, v0⟩ := hd
    simp only [List.map_cons, List.nodup_cons] at h
    by_cases hk : k0 = k
    · subst hk
      simpa [dictRemove] using h.1
    · simp only [dictRemove, if_neg hk, List.map_cons, List.mem_cons]
      intro hc
      rcases hc with hc | hc
      · exact hk hc.symm
      · exact ih h.2 hc

theorem dictInsert_all (d : List (κ × α)) (k : κ) (v : α) (p : κ × α → Bool)
    (hd : d.all p = true) (hv : p (k, v) = true) : (dictInsert d k v).all p = true := by
  induction d with
  | nil => simp [dictInsert, hv]
  | cons hd0 tl ih =>
    obtain ⟨k0, v0⟩ := hd0
    simp only [List.all_cons, Bool.and_eq_true] at hd
    by_cases h : k0 = k
    · simp only [dictInsert, if_pos h, List.all_cons, Bool.and_eq_true]
      exact ⟨hv, hd.2⟩
    · simp only [dictInsert, if_neg h, List.all_cons, hd.1, Bool.true_and]
      exact ih hd.2

theorem dictInsert_filter_singleton (d : List (κ × α)) (k : κ) (v : α)
    (h : dictLookup d k = none) :
    (dictInsert d k v).filter (fun kv => decide (kv.1 = k)) = [(k, v)] := by
  induction d with
  | nil => simp [dictInsert, List.filter]
  | cons hd0 tl ih =>
    obtain ⟨k0, v0⟩ := hd0
    simp only [dictLookup] at h
    by_cases hk : k0 = k
    · simp [hk] at h
    · simp only [if_neg hk] at h
      simp only [dictInsert, if_neg hk, List.filter, decide_eq_true_eq]
      simp [hk, ih h]

theorem mem_dictInsert (d : List (κ × α)) (k : κ) (v : α) (x : κ × α)
    (h : x ∈ dictInsert d k v) : x ∈ d ∨ x = (k, v) := by
  induction d with
  | nil => simpa [dictInsert] using h
  | cons hd tl ih =>
    obtain ⟨k0, v0⟩ := hd
    by_cases hk : k0 = k
    · rw [dictInsert, if_pos hk] at h
      rcases List.mem_cons.mp h with he | hm
      · exact Or.inr he
      · exact Or.inl (List.mem_cons_of_mem _ hm)
    · rw [dictInsert, if_neg hk] at h
      rcases List.mem_cons.mp h with he | hm
      · exact Or.inl (he ▸ List.mem_cons_self _ _)
      · rcases ih hm with hm' | he'
        · exact Or.inl (List.mem_cons_of_mem _ hm')
        · exact Or.inr he'

theorem dictLookup_eq_none_of_not_mem (d : List (κ × α)) (k : κ)
    (h : k ∉ d.map Prod.fst) : dictLookup d k = none := by
  induction d with
  | nil => rfl
  | cons hd tl ih =>
    obtain ⟨k0, v0⟩ := hd
    simp only [List.map_cons, List.mem_cons, not_or] at h
    rw [dictLookup, if_neg (fun he => h.1 he.symm)]
    exact ih h.2

theorem storeGet_put_self (st : List (Key × StoreVal)) (k : Key) (v : StoreVal) :
    storeGet (storePut st k v) k = some v := by
  induction st with
  | nil => simp [storePut, storeGet]
  | cons hd tl ih =>
    obtain ⟨k0, v0⟩ := hd
    by_cases h1 : keyLt k k0
    · simp [storePut, if_pos h1, storeGet]
    · by_cases h2 : k = k0
      · simp [storePut, if_neg h1, if_pos h2, storeGet]
      · have h2' : ¬(k0 = k) := fun h => h2 h.symm
        simp only [storePut, if_neg h1, if_neg h2, storeGet, if_neg h2']
        exact ih

theorem storeGet_put_ne (st : List (Key × StoreVal)) (k k' : Key) (v : StoreVal)
    (hne : k' ≠ k) : storeGet (storePut st k v) k' = storeGet st k' := by
  have hne' : ¬(k = k') := fun h => hne h.symm
  induction st with
  | nil => simp [storePut, storeGet, hne']
  | cons hd tl ih =>
    obtain ⟨k0, v0⟩ := hd
    by_cases h1 : keyLt k k0
    · simp only [storePut, if_pos h1, storeGet, if_neg hne']
    · by_cases h2 : k = k0
      · subst h2
        simp only [storePut, if_neg h1, if_pos rfl, storeGet, if_neg hne']
      · simp only [storePut, if_neg h1, if_neg h2, storeGet]
        by_cases h3 : k0 = k'
        · simp [h3]
        · simp [h3, ih]

end DictLemmas

section KeyOrder

theorem keyLt_irrefl (k : List Nat) : keyLt k k = false := by
  induction k with
  | nil => rfl
  | cons a as ih => simp [keyLt, Nat.lt_irrefl, ih]

theorem keyLt_cons_iff (x y : Nat) (xs ys : List Nat) :
    keyLt (x :: xs) (y :: ys) = true ↔ (x < y ∨ (x = y ∧ keyLt xs ys = true)) := by
  simp only [keyLt]
  by_cases h1 : x < y
  · simp [h1]
  · by_cases h2 : y < x
    · simp only [if_neg h1, if_pos h2]
      constructor
      · intro h
        exact absurd h (by simp)
      · intro h
        rcases h with h | ⟨h, _⟩
        · exact absurd h h1
        · omega
    · have hxy : x = y := by omega
      simp [h1, h2, hxy]

theorem keyLt_trans (a b c : List Nat) (h1 : keyLt a b = true) (h2 : keyLt b c = true) :
    keyLt a c = true := by
  induction a generalizing b c with
  | nil =>
    cases b with
    | nil => simp [keyLt] at h1
    | cons y ys =>
      cases c with
      | nil => simp [keyLt] at h2
      | cons z zs => rfl
  | cons x xs ih =>
    cases b with
    | nil => simp [keyLt] at h1
    | cons y ys =>
      cases c with
      | nil => simp [keyLt] at h2
      | cons z zs =>
        rcases (keyLt_cons_iff x y xs ys).mp h1 with hxy | ⟨hxy, h1'⟩ <;>
          rcases (keyLt_cons_iff y z ys zs).mp h2 with hyz | ⟨hyz, h2'⟩
        · exact (keyLt_cons_iff x z xs zs).mpr (Or.inl (Nat.lt_trans hxy hyz))
        · exact (keyLt_cons_iff x z xs zs).mpr (Or.inl (by omega))
        · exact (keyLt_cons_iff x z xs zs).mpr (Or.inl (by omega))
        · exact (keyLt_cons_iff x z xs zs).mpr (Or.inr ⟨by omega, ih ys zs h1' h2'⟩)

theorem keyLt_asymm (a b : List Nat) (h : keyLt a b = true) : keyLt b a = false := by
  by_contra hc
  have hc' : keyLt b a = true := by
    cases hv : keyLt b a
    · exact absurd hv hc
    · rfl
  have := keyLt_trans a b a h hc'
  rw [keyLt_irrefl] at this
  exact Bool.false_ne_true this

theorem isPrefixOf_keyLt_false (p k : List Nat) (h : List.isPrefixOf p k = true) :
    keyLt k p = false := by
  induction p generalizing k with
  | nil => cases k <;> rfl
  | cons a as ih =>
    cases k with
    | nil => simp [List.isPrefixOf] at h
    | cons b bs =>
      simp only [List.isPrefixOf, Bool.and_eq_true, beq_iff_eq] at h
      obtain ⟨hab, h2⟩ := h
      subst hab
      simp [keyLt, Nat.lt_irrefl, ih bs h2]

theorem keyLt_of_prefixes (p k k' : List Nat) (h1 : keyLt k p = false)
    (h2 : List.isPrefixOf p k = false) (h3 : List.isPrefixOf p k' = true) :
    keyLt k' k = true := by
  induction p generalizing k k' with
  | nil => simp [List.isPrefixOf] at h2
  | cons a as ih =>
    cases k' with
    | nil => simp [List.isPrefixOf] at h3
    | cons b' bs' =>
      simp only [List.isPrefixOf, Bool.and_eq_true, beq_iff_eq] at h3
      obtain ⟨hab', h3'⟩ := h3
      subst hab'
      cases k with
      | nil => simp [keyLt] at h1
      | cons b bs =>
        by_cases hab : a < b
        · exact (keyLt_cons_iff a b bs' bs).mpr (Or.inl hab)
        · by_cases hba : b < a
          · simp [keyLt, hba] at h1
          · have he : a = b := by omega
            subst he
            simp only [keyLt, Nat.lt_irrefl, if_neg (Nat.lt_irrefl a)] at h1
            simp only [List.isPrefixOf, beq_self_eq_true, Bool.true_and] at h2
            exact (keyLt_cons_iff a a bs' bs).mpr (Or.inr ⟨rfl, ih bs bs' h1 h2 h3'⟩)

theorem isPrefixOf_cons_dest (a : Nat) (as k : List Nat)
    (h : List.isPrefixOf (a :: as) k = true) : ∃ t, k = a :: t := by
  cases k with
  | nil => simp [List.isPrefixOf] at h
  | cons b bs =>
    simp only [List.isPrefixOf, Bool.and_eq_true, beq_iff_eq] at h
    exact ⟨bs, by rw [h.1]⟩

theorem sep_terminated_inj (xs ys k : List Nat) (hx : 58 ∉ xs) (hy : 58 ∉ ys)
    (h1 : List.isPrefixOf (xs ++ [58]) k = true)
    (h2 : List.isPrefixOf (ys ++ [58]) k = true) : xs = ys := by
  induction xs generalizing ys k with
  | nil =>
    cases ys with
    | nil => rfl
    | cons y ys' =>
      cases k with
      | nil => simp [List.isPrefixOf] at h1
      | cons b bs =>
        simp only [List.nil_append, List.cons_append, List.isPrefixOf,
          Bool.and_eq_true, beq_iff_eq] at h1 h2
        have hy58 : y = 58 := by omega
        exact absurd (hy58 ▸ List.mem_cons_self y ys') hy
  | cons x xs' ih =>
    cases ys with
    | nil =>
      cases k with
      | nil => simp [List.isPrefixOf] at h2
      | cons b bs =>
        simp only [List.nil_append, List.cons_append, List.isPrefixOf,
          Bool.and_eq_true, beq_iff_eq] at h1 h2
        have hx58 : x = 58 := by omega
        exact absurd (hx58 ▸ List.mem_cons_self x xs') hx
    | cons y ys' =>
      cases k with
      | nil => simp [List.isPrefixOf] at h1
      | cons b bs =>
        simp only [List.cons_append, List.isPrefixOf, Bool.and_eq_true, beq_iff_eq] at h1 h2
        have hxy : x = y := by omega
        have hx' : 58 ∉ xs' := fun hm => hx (List.mem_cons_of_mem x hm)
        have hy' : 58 ∉ ys' := fun hm => hy (List.mem_cons_of_mem y hm)
        rw [hxy, ih ys' bs hx' hy' h1.2 h2.2]

end KeyOrder

section NameKeys

theorem strBytes_inj (s1 s2 : String) (h : strBytes s1 = strBytes s2) : s1 = s2 := by
  have hinj : Function.Injective Char.toNat := by
    intro a b hab
    exact Char.eq_of_val_eq (UInt32.eq_of_val_eq (Fin.ext hab))
  have hdata : s1.data = s2.data := List.map_injective_iff.mpr hinj h
  cases s1
  cases s2
  exact congrArg String.mk hdata

theorem sep_not_mem_strBytes (name : String) (h : is_suitable_user_key name = true) :
    58 ∉ strBytes name := by
  simp only [is_suitable_user_key, Bool.and_eq_true] at h
  intro hmem
  simp only [strBytes, List.mem_map] at hmem
  obtain ⟨c, hc, hcn⟩ := hmem
  have hsc := List.all_eq_true.mp h.2 c hc
  simp only [suitableChar, Bool.or_eq_true, Bool.and_eq_true, decide_eq_true_eq] at hsc
  omega

theorem schemaKey_inj (n1 n2 : String)
    (h : arrayset_record_schema_db_key_from_raw_key n1 =
         arrayset_record_schema_db_key_from_raw_key n2) : n1 = n2 := by
  simp only [arrayset_record_schema_db_key_from_raw_key] at h
  injection h with h1 h2
  exact strBytes_inj n1 n2 h2

theorem rangeKey_prefix_inj (n1 n2 : String) (k : List Nat)
    (hv1 : is_suitable_user_key n1 = true) (hv2 : is_suitable_user_key n2 = true)
    (h1 : List.isPrefixOf (arrayset_record_count_range_key n1) k = true)
    (h2 : List.isPrefixOf (arrayset_record_count_range_key n2) k = true) : n1 = n2 := by
  have e1 : arrayset_record_count_range_key n1 = (97 :: strBytes n1) ++ [58] := by
    simp [arrayset_record_count_range_key]
  have e2 : arrayset_record_count_range_key n2 = (97 :: strBytes n2) ++ [58] := by
    simp [arrayset_record_count_range_key]
  rw [e1] at h1
  rw [e2] at h2
  have hx : 58 ∉ 97 :: strBytes n1 := by
    intro hm
    rcases List.mem_cons.mp hm with hm | hm
    · omega
    · exact sep_not_mem_strBytes n1 hv1 hm
  have hy : 58 ∉ 97 :: strBytes n2 := by
    intro hm
    rcases List.mem_cons.mp hm with hm | hm
    · omega
    · exact sep_not_mem_strBytes n2 hv2 hm
  have hcc := sep_terminated_inj (97 :: strBytes n1) (97 :: strBytes n2) k hx hy h1 h2
  injection hcc with hc1 hc2
  exact strBytes_inj n1 n2 hc2

theorem rangeKey_not_pre_schemaKey (a b : String) :
    List.isPrefixOf (arrayset_record_count_range_key a)
      (arrayset_record_schema_db_key_from_raw_key b) = false := by
  simp [arrayset_record_count_range_key, arrayset_record_schema_db_key_from_raw_key,
    List.isPrefixOf]

end NameKeys

section ScanLemmas

theorem delRun_eq_filter (p : Key) (l : List (Key × StoreVal))
    (hs : l.Pairwise (fun x y => keyLt x.1 y.1 = true))
    (hge : ∀ x ∈ l, keyLt x.1 p = false) :
    delRun p l = l.filter (fun kv => !(List.isPrefixOf p kv.1)) := by
  induction l with
  | nil => rfl
  | cons hd tl ih =>
    rw [List.pairwise_cons] at hs
    by_cases hpre : List.isPrefixOf p hd.1 = true
    · rw [List.filter_cons_of_neg (by simp [hpre])]
      simp only [delRun, if_pos hpre]
      exact ih hs.2 (fun x hx => hge x (List.mem_cons_of_mem _ hx))
    · have hpre' : List.isPrefixOf p hd.1 = false := by
        cases hval : List.isPrefixOf p hd.1
        · rfl
        · exact absurd hval hpre
      have htl : ∀ x ∈ tl, (!(List.isPrefixOf p x.1)) = true := by
        intro x hx
        cases hxp : List.isPrefixOf p x.1
        · rfl
        · have hlt := keyLt_of_prefixes p hd.1 x.1
            (hge hd (List.mem_cons_self hd tl)) hpre' hxp
          have hasym := keyLt_asymm hd.1 x.1 (hs.1 x hx)
          rw [hasym] at hlt
          exact absurd hlt (by simp)
      rw [List.filter_cons_of_pos (by simp [hpre'])]
      simp only [delRun, if_neg hpre]
      rw [List.filter_eq_self.mpr htl]

theorem dropWhile_ge (p : Key) (st : List (Key × StoreVal))
    (hs : st.Pairwise (fun x y => keyLt x.1 y.1 = true)) :
    ∀ x ∈ st.dropWhile (fun kv => keyLt kv.1 p), keyLt x.1 p = false := by
  induction st with
  | nil => intro x hx; simp [List.dropWhile] at hx
  | cons hd tl ih =>
    rw [List.pairwise_cons] at hs
    by_cases hq : keyLt hd.1 p = true
    · rw [List.dropWhile_cons, if_pos hq]
      exact ih hs.2
    · have hq' : keyLt hd.1 p = false := by
        cases hval : keyLt hd.1 p
        · rfl
        · exact absurd hval hq
      rw [List.dropWhile_cons, if_neg (by simp [hq'])]
      intro x hx
      rcases List.mem_cons.mp hx with hx | hx
      · rw [hx]; exact hq'
      · cases hxp : keyLt x.1 p
        · rfl
        · have := keyLt_trans hd.1 x.1 p (hs.1 x hx) hxp
          exact absurd this (by simp [hq'])

theorem scanDeleteRange_eq_filter (p : Key) (st : List (Key × StoreVal))
    (hs : st.Pairwise (fun x y => keyLt x.1 y.1 = true)) :
    scanDeleteRange p st = st.filter (fun kv => !(List.isPrefixOf p kv.1)) := by
  unfold scanDeleteRange
  have hsplit := List.takeWhile_append_dropWhile
    (fun kv : Key × StoreVal => keyLt kv.1 p) st
  have hdrop_pw : (st.dropWhile (fun kv => keyLt kv.1 p)).Pairwise
      (fun x y => keyLt x.1 y.1 = true) :=
    List.Pairwise.sublist (List.dropWhile_sublist _) hs
  rw [delRun_eq_filter p _ hdrop_pw (dropWhile_ge p st hs)]
  conv_rhs => rw [← hsplit]
  rw [List.filter_append]
  congr 1
  symm
  rw [List.filter_eq_self]
  intro x hx
  have hq := List.mem_takeWhile_imp hx
  cases hxp : List.isPrefixOf p x.1
  · rfl
  · have := isPrefixOf_keyLt_false p x.1 hxp
    rw [this] at hq
    exact absurd hq (by simp)

theorem storeDeleteKey_eq_filter (st : List (Key × StoreVal)) (k : Key)
    (hs : st.Pairwise (fun x y => keyLt x.1 y.1 = true)) :
    storeDeleteKey st k = st.filter (fun kv => !(decide (kv.1 = k))) := by
  induction st with
  | nil => rfl
  | cons hd tl ih =>
    rw [List.pairwise_cons] at hs
    obtain ⟨k0, v0⟩ := hd
    by_cases hk : k0 = k
    · subst hk
      rw [show storeDeleteKey ((k0, v0) :: tl) k0 = tl from by simp [storeDeleteKey]]
      rw [List.filter_cons_of_neg (by simp)]
      symm
      rw [List.filter_eq_self]
      intro x hx
      have hlt := hs.1 x hx
      cases hxe : decide (x.1 = k0) <;> simp_all [keyLt_irrefl]
    · simp only [storeDeleteKey, if_neg hk]
      rw [List.filter_cons_of_pos (by simp [hk])]
      rw [ih hs.2]

end ScanLemmas

section CatalogLemmas

theorem anyIsConman_false_iff (c : Arraysets) :
    c.anyIsConman = false ↔
      (c.isConman = false ∧ ∀ kv ∈ c.arraysets, kv.2.conman = false) := by
  simp [Arraysets.anyIsConman, List.any_eq_true]

theorem init_arrayset_ok (c : Arraysets) (name : String) (s : List Nat) (d : Nat)
    (ns vs cs : Bool)
    (hcon : c.anyIsConman = false)
    (hv : (is_suitable_user_key name && is_ascii name) = true)
    (hf : c.containsName name = false)
    (hshape : (s.contains 0 || decide (31 < s.length)) = false) :
    c.init_arrayset name (some s) (some d) none ns vs cs none =
      Except.ok (initResultCatalog c name s d ns vs cs,
        defaultModifier name s d ns vs cs) := by
  simp only [Arraysets.init_arrayset, initResultCatalog, hcon, hv, hf,
    Arraysets.resolveTemplate, parse_user_backend_opts, npZeros, NDArray.ndim,
    Bool.not_true, Bool.false_eq_true, if_false, ite_false]
  simp only [show ((List.contains s 0 ||
    decide (31 < ({ shape := s, dtypeNum := d, c_contiguous := true } : NDArray).shape.length)) = false)
    from hshape]
  simp [defaultSchemaRec, defaultSchemaHash, defaultModifier, schema_hash_digest, NDArray.size]

end CatalogLemmas

section MultiAddLemmas

theorem addToAset_lookup_ne (c : Arraysets) (k k' : String) (id : Nat) (v : NDArray)
    (hne : k' ≠ k) :
    dictLookup (c.addToAset k id v).arraysets k' = dictLookup c.arraysets k' := by
  unfold Arraysets.addToAset
  cases h : dictLookup c.arraysets k
  · rfl
  · exact dictLookup_insert_ne _ _ _ _ hne

theorem addToAset_lookup_self (c : Arraysets) (k : String) (id : Nat) (v : NDArray)
    (a : Accessor) (h : dictLookup c.arraysets k = some a) :
    dictLookup (c.addToAset k id v).arraysets k = some (a.add id v) := by
  unfold Arraysets.addToAset
  rw [h]
  exact dictLookup_insert_self _ _ _

theorem addToAset_contains (c : Arraysets) (k k' : String) (id : Nat) (v : NDArray) :
    (c.addToAset k id v).containsName k' = c.containsName k' := by
  by_cases hne : k' = k
  · subst hne
    unfold Arraysets.containsName Arraysets.addToAset
    cases h : dictLookup c.arraysets k' <;> simp [h, dictLookup_insert_self]
  · unfold Arraysets.containsName
    rw [addToAset_lookup_ne c k k' id v hne]

theorem addToAset_fields (c : Arraysets) (k : String) (id : Nat) (v : NDArray) :
    (c.addToAset k id v).dataStore = c.dataStore ∧
    (c.addToAset k id v).hashStore = c.hashStore ∧
    (c.addToAset k id v).mode = c.mode ∧
    (c.addToAset k id v).nextSampleId = c.nextSampleId := by
  unfold Arraysets.addToAset
  cases h : dictLookup c.arraysets k <;> exact ⟨rfl, rfl, rfl, rfl⟩

theorem foldAdds_fields (id : Nat) (l : List (String × NDArray)) (c : Arraysets) :
    (Arraysets.foldAdds id c l).dataStore = c.dataStore ∧
    (Arraysets.foldAdds id c l).hashStore = c.hashStore ∧
    (Arraysets.foldAdds id c l).mode = c.mode ∧
    (Arraysets.foldAdds id c l).nextSampleId = c.nextSampleId := by
  induction l generalizing c with
  | nil => exact ⟨rfl, rfl, rfl, rfl⟩
  | cons hd tl ih =>
    have h1 := ih (c.addToAset hd.1 id hd.2)
    have h2 := addToAset_fields c hd.1 id hd.2
    unfold Arraysets.foldAdds
    exact ⟨h1.1.trans h2.1, h1.2.1.trans h2.2.1, h1.2.2.1.trans h2.2.2.1,
      h1.2.2.2.trans h2.2.2.2⟩

theorem foldAdds_lookup_not_mem (id : Nat) (l : List (String × NDArray)) (c : Arraysets)
    (k : String) (hk : k ∉ l.map Prod.fst) :
    dictLookup (Arraysets.foldAdds id c l).arraysets k = dictLookup c.arraysets k := by
  induction l generalizing c with
  | nil => rfl
  | cons hd tl ih =>
    simp only [List.map_cons, List.mem_cons, not_or] at hk
    unfold Arraysets.foldAdds
    rw [ih (c.addToAset hd.1 id hd.2) hk.2]
    exact addToAset_lookup_ne c hd.1 k id hd.2 hk.1

theorem foldAdds_contains (id : Nat) (l : List (String × NDArray)) (c : Arraysets)
    (k : String) :
    (Arraysets.foldAdds id c l).containsName k = c.containsName k := by
  induction l generalizing c with
  | nil => rfl
  | cons hd tl ih =>
    unfold Arraysets.foldAdds
    rw [ih (c.addToAset hd.1 id hd.2)]
    exact addToAset_contains c hd.1 k id hd.2

theorem foldAdds_retrieves (id : Nat) (l : List (String × NDArray)) (c : Arraysets)
    (hnd : (l.map Prod.fst).Nodup)
    (hall : ∀ kv ∈ l, c.containsName kv.1 = true) :
    ∀ kv ∈ l, ∃ a, dictLookup (Arraysets.foldAdds id c l).arraysets kv.1 = some a ∧
      dictLookup a.samples id = some kv.2 := by
  induction l generalizing c with
  | nil => intro kv h; simp at h
  | cons hd tl ih =>
    rw [List.map_cons] at hnd
    have hnd' := List.nodup_cons.mp hnd
    intro kv hkv
    rcases List.mem_cons.mp hkv with heq | hmem
    · subst heq
      have hc : c.containsName kv.1 = true := hall kv (List.mem_cons_self kv tl)
      unfold Arraysets.containsName at hc
      obtain ⟨a, ha⟩ : ∃ a, dictLookup c.arraysets kv.1 = some a := by
        cases h : dictLookup c.arraysets kv.1
        · rw [h] at hc; simp at hc
        · exact ⟨_, rfl⟩
      refine ⟨a.add id kv.2, ?_, ?_⟩
      · unfold Arraysets.foldAdds
        rw [foldAdds_lookup_not_mem id tl _ kv.1 hnd'.1]
        exact addToAset_lookup_self c kv.1 id kv.2 a ha
      · unfold Accessor.add
        exact dictLookup_insert_self _ _ _
    · unfold Arraysets.foldAdds
      refine ih (c.addToAset hd.1 id hd.2) hnd'.2 ?_ kv hmem
      intro kv' hkv'
      rw [addToAset_contains]
      exact hall kv' (List.mem_cons_of_mem _ hkv')

end MultiAddLemmas

section FactoryLemmas

theorem buildAccessors_ok_forall2 (gen : Variant → String → SchemaRec → Except PyError Accessor)
    (Q : Variant → Accessor → Prop)
    (hgen : ∀ v n s a, gen v n s = Except.ok a → Q v a)
    (specs : List (String × SchemaRec)) (l : List (String × Accessor))
    (h : Arraysets.buildAccessors gen specs = Except.ok l) :
    List.Forall₂ (fun ns na => na.1 = ns.1 ∧ Q (Arraysets.dispatchVariant ns.2) na.2) specs l := by
  induction specs generalizing l with
  | nil =>
    unfold Arraysets.buildAccessors at h
    cases h
    exact List.Forall₂.nil
  | cons hd tl ih =>
    obtain ⟨n, spec⟩ := hd
    unfold Arraysets.buildAccessors at h
    cases hg : gen (Arraysets.dispatchVariant spec) n spec with
    | error e => rw [hg] at h; cases h
    | ok acc =>
      rw [hg] at h
      cases hb : Arraysets.buildAccessors gen tl with
      | error e => rw [hb] at h; cases h
      | ok others =>
        rw [hb] at h
        cases h
        exact List.Forall₂.cons ⟨rfl, hgen _ _ _ _ hg⟩ (ih others hb)

theorem buildAccessors_ok_of_all (gen : Variant → String → SchemaRec → Except PyError Accessor)
    (specs : List (String × SchemaRec))
    (h : ∀ ns ∈ specs, ∃ a, gen (Arraysets.dispatchVariant ns.2) ns.1 ns.2 = Except.ok a) :
    ∃ l, Arraysets.buildAccessors gen specs = Except.ok l := by
  induction specs with
  | nil => exact ⟨[], rfl⟩
  | cons hd tl ih =>
    obtain ⟨n, spec⟩ := hd
    obtain ⟨a, ha⟩ := h (n, spec) (List.mem_cons_self _ _)
    obtain ⟨l, hl⟩ := ih (fun ns hns => h ns (List.mem_cons_of_mem _ hns))
    refine ⟨(n, a) :: l, ?_⟩
    unfold Arraysets.buildAccessors
    rw [ha, hl]

theorem buildAccessors_error_of_mem (gen : Variant → String → SchemaRec → Except PyError Accessor)
    (specs : List (String × SchemaRec)) (ns : String × SchemaRec)
    (hmem : ns ∈ specs)
    (hfail : ∀ a, ¬(gen (Arraysets.dispatchVariant ns.2) ns.1 ns.2 = Except.ok a)) :
    ∃ e, Arraysets.buildAccessors gen specs = Except.error e := by
  induction specs with
  | nil => simp at hmem
  | cons hd tl ih =>
    obtain ⟨n, spec⟩ := hd
    rcases List.mem_cons.mp hmem with heq | hmem'
    · subst heq
      cases hg : gen (Arraysets.dispatchVariant spec) n spec with
      | error e =>
        refine ⟨e, ?_⟩
        unfold Arraysets.buildAccessors
        rw [hg]
      | ok a => exact absurd hg (hfail a)
    · cases hg : gen (Arraysets.dispatchVariant spec) n spec with
      | error e =>
        refine ⟨e, ?_⟩
        unfold Arraysets.buildAccessors
        rw [hg]
      | ok a =>
        obtain ⟨e, he⟩ := ih hmem'
        refine ⟨e, ?_⟩
        unfold Arraysets.buildAccessors
        rw [hg, he]

end FactoryLemmas

section Claims

/-- C1 counterexample: on a concrete read-mode catalog and a fully valid
argument list, the attempted `init_arrayset` call fails, but the error is the
generic call failure raised by invoking the nulled method slot (`TypeError`),
not a capability violation — refuting the claim that every structural
mutation attempt on a read-mode catalog fails with a capability violation
distinguishable from a generic call failure. -/
theorem read_mode_rejection_not_capviol :
    rcat.call_init_arrayset "ok" none none (some arr1) true false false none =
      Except.error (PyError.typeError "NoneType object is not callable") ∧
    PyError.isCapabilityViolation (PyError.typeError "NoneType object is not callable") = false :=
  ⟨rfl, rfl⟩

/-- C1 (amended): for a catalog constructed in read mode, every structural
mutation attempt — calling `init_arrayset`, `delete`, or `multi_add`, and
name-keyed deletion — fails unconditionally and regardless of argument
validity, and the catalog is unchanged; but the failure is a generic call
failure (`TypeError` from the method slot nulled by `__setup`), not a
capability violation (name-keyed deletion alone reports a capability
violation first when a scoped context is open, because its conman guard runs
before the nulled `delete` slot is touched). -/
theorem read_mode_calls_fail_generic (c : Arraysets) (h : c.mode = Mode.r) :
    (∀ name shape dtype prototype ns vs cs bo,
      c.call_init_arrayset name shape dtype prototype ns vs cs bo =
        Except.error (PyError.typeError "NoneType object is not callable")) ∧
    (∀ name, c.call_delete name =
      Except.error (PyError.typeError "NoneType object is not callable")) ∧
    (∀ mapping, c.call_multi_add mapping =
      Except.error (PyError.typeError "NoneType object is not callable")) ∧
    (∀ name, c.anyIsConman = false →
      c.del_subscript name =
        Except.error (PyError.typeError "NoneType object is not callable")) := by
  refine ⟨?_, ?_, ?_, ?_⟩
  · intro name shape dtype prototype ns vs cs bo
    simp [Arraysets.call_init_arrayset, h]
  · intro name
    simp [Arraysets.call_delete, h]
  · intro mapping
    simp [Arraysets.call_multi_add, h]
  · intro name hcon
    simp [Arraysets.del_subscript, h, hcon]

/-- C1 (amended) witness: the amended statement applied to the concrete
read-mode fixture catalog. -/
theorem read_mode_calls_fail_generic_witness :
    rcat.call_init_arrayset "ok" none none (some arr1) true false false none =
      Except.error (PyError.typeError "NoneType object is not callable") ∧
    rcat.del_subscript "x" =
      Except.error (PyError.typeError "NoneType object is not callable") :=
  ⟨(read_mode_calls_fail_generic rcat rfl).1 "ok" none none (some arr1) true false false none,
   (read_mode_calls_fail_generic rcat rfl).2.2.2 "x" rfl⟩

/-- C7: on a write-mode catalog whose own reentrancy counter or any contained
accessor's reentrancy counter is nonzero (`_any_is_conman`), every structural
operation — `init_arrayset`, `delete`, and name-keyed deletion — raises a
capability violation (`PermissionError`) and hands back no mutated state. -/
theorem conman_blocks_structural_ops (c : Arraysets) (hmode : c.mode = Mode.a)
    (h : c.anyIsConman = true) :
    (∀ name shape dtype prototype ns vs cs bo,
      c.call_init_arrayset name shape dtype prototype ns vs cs bo =
        Except.error (PyError.permissionError Arraysets.conmanMsg)) ∧
    (∀ name, c.call_delete name =
      Except.error (PyError.permissionError Arraysets.conmanMsg)) ∧
    (∀ name, c.del_subscript name =
      Except.error (PyError.permissionError Arraysets.conmanMsg)) := by
  refine ⟨?_, ?_, ?_⟩
  · intro name shape dtype prototype ns vs cs bo
    simp [Arraysets.call_init_arrayset, Arraysets.init_arrayset, hmode, h]
  · intro name
    simp [Arraysets.call_delete, Arraysets.delete, hmode, h]
  · intro name
    simp [Arraysets.del_subscript, h]

/-- C7 witness: the statement applied to the concrete fixture catalog held
open in a context manager. -/
theorem conman_blocks_structural_ops_witness :
    ccat.call_delete "x" = Except.error (PyError.permissionError Arraysets.conmanMsg) :=
  (conman_blocks_structural_ops ccat rfl rfl).2.1 "x"

/-- C8: name-keyed assignment (`catalog[name] = value`) is rejected with a
`PermissionError` for every catalog (read or write mode), every name and every
value, handing back no mutated state: Python dispatches the statement to the
class-level `__setitem__`, whose body unconditionally raises. -/
theorem setitem_always_rejected (c : Arraysets) (key : String) (value : NDArray) :
    c.store_subscript key value =
      Except.error (PyError.permissionError "Not allowed! To add a arrayset use init_arrayset method.") :=
  rfl

/-- C6: for a write-mode catalog, `multi_add` on a mapping containing at least
one key that is not an existing arrayset name raises a `KeyError` whose
reported name list contains every offending (unknown) name — not just the
first encountered — and performs no arrayset insertion (the error is raised
before the identifier is generated and before any delegated `add`). -/
theorem multi_add_unknown_keys (c : Arraysets) (mapping : List (String × NDArray))
    (hmode : c.mode = Mode.a)
    (hbad : ∃ kv ∈ mapping, c.containsName kv.1 = false) :
    c.call_multi_add mapping =
      Except.error (PyError.keyError (mapping.map Prod.fst)
        "not all keys exist as arrayset names") ∧
    ∀ kv ∈ mapping, c.containsName kv.1 = false → kv.1 ∈ mapping.map Prod.fst := by
  constructor
  · have hall : mapping.all (fun kv => c.containsName kv.1) = false := by
      obtain ⟨kv, hm, hf⟩ := hbad
      cases hv : mapping.all (fun kv => c.containsName kv.1)
      · rfl
      · have := List.all_eq_true.mp hv kv hm
        rw [hf] at this
        exact absurd this (by simp)
    simp [Arraysets.call_multi_add, Arraysets.multi_add, hmode, hall]
  · intro kv hm _
    exact List.mem_map_of_mem Prod.fst hm

/-- C6 witness: the statement applied to the fixture catalog and a mapping
with the unknown arrayset name `zz`. -/
theorem multi_add_unknown_keys_witness :
    wcatX.call_multi_add [("zz", arr1)] =
      Except.error (PyError.keyError ["zz"] "not all keys exist as arrayset names") :=
  (multi_add_unknown_keys wcatX [("zz", arr1)] rfl
    ⟨("zz", arr1), List.mem_cons_self _ _, rfl⟩).1

/-- C10: for a write-mode catalog, `multi_add` applied to the empty mapping
succeeds: it raises no error, invokes no arrayset's insertion — the name→
accessor mapping and both stores are unchanged — and still generates and
returns a fresh sample identifier under which (provided every stored sample
id predates the generator state) no sample is stored in any arrayset. -/
theorem multi_add_empty_mapping (c : Arraysets) (hmode : c.mode = Mode.a)
    (hfresh : ∀ kv ∈ c.arraysets, ∀ s ∈ kv.2.samples, s.1 < c.nextSampleId) :
    ∃ c', c.call_multi_add [] = Except.ok (c', c.nextSampleId) ∧
      c'.arraysets = c.arraysets ∧ c'.dataStore = c.dataStore ∧
      c'.hashStore = c.hashStore ∧
      ∀ kv ∈ c.arraysets, dictLookup kv.2.samples c.nextSampleId = none := by
  refine ⟨{ c with nextSampleId := c.nextSampleId + 1 }, ?_, rfl, rfl, rfl, ?_⟩
  · simp [Arraysets.call_multi_add, Arraysets.multi_add, hmode, Arraysets.foldAdds]
  · intro kv hm
    exact dictLookup_lt_none _ _ (hfresh kv hm)

/-- C10 witness: the statement applied to the fixture write-mode catalog. -/
theorem multi_add_empty_mapping_witness :
    ∃ c', wcatX.call_multi_add [] = Except.ok (c', wcatX.nextSampleId) ∧
      c'.arraysets = wcatX.arraysets ∧ c'.dataStore = wcatX.dataStore ∧
      c'.hashStore = wcatX.hashStore ∧
      ∀ kv ∈ wcatX.arraysets, dictLookup kv.2.samples wcatX.nextSampleId = none :=
  multi_add_empty_mapping wcatX rfl (by decide)

/-- C5: for a write-mode catalog and an input mapping (with distinct keys)
whose keys all name existing arraysets, `multi_add` generates one fresh
sample identifier — the next value of the generator state, unused by any
arrayset whose stored ids predate it — delegates each `(name, array)` pair to
that arrayset's own single-sample insertion under that same shared
identifier, and returns it, so that the identifier afterwards retrieves each
respective array from each of those arraysets. -/
theorem multi_add_shared_identifier (c : Arraysets) (mapping : List (String × NDArray))
    (hmode : c.mode = Mode.a)
    (hall : mapping.all (fun kv => c.containsName kv.1) = true)
    (hnd : (mapping.map Prod.fst).Nodup) :
    ∃ c', c.call_multi_add mapping = Except.ok (c', c.nextSampleId) ∧
      (∀ kv ∈ mapping, ∃ a, dictLookup c'.arraysets kv.1 = some a ∧
        dictLookup a.samples c.nextSampleId = some kv.2) ∧
      ((∀ kv ∈ c.arraysets, ∀ s ∈ kv.2.samples, s.1 < c.nextSampleId) →
        ∀ kv ∈ c.arraysets, dictLookup kv.2.samples c.nextSampleId = none) := by
  refine ⟨Arraysets.foldAdds c.nextSampleId
    { c with nextSampleId := c.nextSampleId + 1 } mapping, ?_, ?_, ?_⟩
  · simp [Arraysets.call_multi_add, Arraysets.multi_add, hmode, hall]
  · exact foldAdds_retrieves c.nextSampleId mapping
      { c with nextSampleId := c.nextSampleId + 1 } hnd
      (fun kv hm => List.all_eq_true.mp hall kv hm)
  · intro hf kv hm
    exact dictLookup_lt_none _ _ (hf kv hm)

/-- C5 witness: the statement applied to the fixture catalog and the mapping
inserting related samples into `x` and `x2`. -/
theorem multi_add_shared_identifier_witness :
    ∃ c', wcatX.call_multi_add [("x", arr1), ("x2", arr2)] =
        Except.ok (c', wcatX.nextSampleId) ∧
      (∀ kv ∈ [("x", arr1), ("x2", arr2)], ∃ a, dictLookup c'.arraysets kv.1 = some a ∧
        dictLookup a.samples wcatX.nextSampleId = some kv.2) ∧
      ((∀ kv ∈ wcatX.arraysets, ∀ s ∈ kv.2.samples, s.1 < wcatX.nextSampleId) →
        ∀ kv ∈ wcatX.arraysets, dictLookup kv.2.samples wcatX.nextSampleId = none) :=
  multi_add_shared_identifier wcatX [("x", arr1), ("x2", arr2)] rfl (by decide) (by decide)

/-- C2: `init_arrayset` validates its preconditions in the stated order, the
first failure winning: (1) no scoped-access context open anywhere (else
capability violation), (2) name well-formed, (3) name not already present,
(4) one of `prototype` or `shape`-plus-`dtype` resolving to a row-major
contiguous template, (5) rank at most 31 and no zero dimension, (6) backend
options valid; each failure is raised before the store writes that only the
all-checks-pass branch performs, handing back no mutated catalog or store
state. -/
theorem init_arrayset_validation_order (c : Arraysets) (name : String)
    (shape : Option (List Nat)) (dtype : Option Nat) (prototype : Option NDArray)
    (ns vs cs : Bool) (bo : Option Nat) :
    (c.anyIsConman = true →
      c.init_arrayset name shape dtype prototype ns vs cs bo =
        Except.error (PyError.permissionError Arraysets.conmanMsg)) ∧
    (c.anyIsConman = false →
      (is_suitable_user_key name && is_ascii name) = false →
      c.init_arrayset name shape dtype prototype ns vs cs bo =
        Except.error (PyError.valueError "Arrayset name provided is invalid")) ∧
    (c.anyIsConman = false →
      (is_suitable_user_key name && is_ascii name) = true →
      c.containsName name = true →
      c.init_arrayset name shape dtype prototype ns vs cs bo =
        Except.error (PyError.lookupError "Arrayset already exists with name")) ∧
    (∀ e, c.anyIsConman = false →
      (is_suitable_user_key name && is_ascii name) = true →
      c.containsName name = false →
      Arraysets.resolveTemplate shape dtype prototype = Except.error e →
      c.init_arrayset name shape dtype prototype ns vs cs bo = Except.error e) ∧
    (∀ proto, c.anyIsConman = false →
      (is_suitable_user_key name && is_ascii name) = true →
      c.containsName name = false →
      Arraysets.resolveTemplate shape dtype prototype = Except.ok proto →
      (proto.shape.contains 0 || decide (31 < proto.ndim)) = true →
      c.init_arrayset name shape dtype prototype ns vs cs bo =
        Except.error (PyError.valueError "Invalid shape specification")) ∧
    (∀ proto e, c.anyIsConman = false →
      (is_suitable_user_key name && is_ascii name) = true →
      c.containsName name = false →
      Arraysets.resolveTemplate shape dtype prototype = Except.ok proto →
      (proto.shape.contains 0 || decide (31 < proto.ndim)) = false →
      parse_user_backend_opts bo proto ns vs = Except.error e →
      c.init_arrayset name shape dtype prototype ns vs cs bo = Except.error e) ∧
    (∀ proto be, c.anyIsConman = false →
      (is_suitable_user_key name && is_ascii name) = true →
      c.containsName name = false →
      Arraysets.resolveTemplate shape dtype prototype = Except.ok proto →
      (proto.shape.contains 0 || decide (31 < proto.ndim)) = false →
      parse_user_backend_opts bo proto ns vs = Except.ok be →
      ∃ c' m, c.init_arrayset name shape dtype prototype ns vs cs bo =
        Except.ok (c', m)) := by
  refine ⟨?_, ?_, ?_, ?_, ?_, ?_, ?_⟩
  · intro h1
    simp [Arraysets.init_arrayset, h1]
  · intro h1 h2
    simp [Arraysets.init_arrayset, h1, h2]
  · intro h1 h2 h3
    simp [Arraysets.init_arrayset, h1, h2, h3]
  · intro e h1 h2 h3 h4
    simp [Arraysets.init_arrayset, h1, h2, h3, h4]
  · intro proto h1 h2 h3 h4 h5
    simp only [Arraysets.init_arrayset, h1, h2, h3, h4, h5, Bool.not_true, Bool.not_false,
      Bool.false_eq_true, eq_self_iff_true, if_true, if_false]
  · intro proto e h1 h2 h3 h4 h5 h6
    simp only [Arraysets.init_arrayset, h1, h2, h3, h4, h5, h6, Bool.not_true, Bool.not_false,
      Bool.false_eq_true, eq_self_iff_true, if_true, if_false]
  · intro proto be h1 h2 h3 h4 h5 h6
    simp only [Arraysets.init_arrayset, h1, h2, h3, h4, h5, h6, Bool.not_true, Bool.not_false,
      Bool.false_eq_true, eq_self_iff_true, if_true, if_false]
    exact ⟨_, _, rfl⟩

/-- C2 witness: the name-validity stage applied to the fixture catalog at the
malformed name `bad name!`. -/
theorem init_arrayset_validation_order_witness :
    wcatX.init_arrayset "bad name!" (some [2]) (some 5) none true false false none =
      Except.error (PyError.valueError "Arrayset name provided is invalid") :=
  (init_arrayset_validation_order wcatX "bad name!" (some [2]) (some 5) none
    true false false none).2.1 rfl (by decide)

/-- C3: every successful `init_arrayset` writes the hash-store entry keyed by
the descriptor's content hash without overwrite, so registering a second
arrayset under a different (valid, fresh) name with a byte-identical schema
descriptor succeeds with no duplicate-hash error: the catalog afterwards
holds two distinct entries, both schema records in the records store, and a
single shared hash-store entry for the common content hash (the second write
leaves the hash store untouched). -/
theorem init_arrayset_schema_dedup (c : Arraysets) (n1 n2 : String) (s : List Nat)
    (d : Nat) (ns vs cs : Bool)
    (hcon : c.anyIsConman = false)
    (hv1 : (is_suitable_user_key n1 && is_ascii n1) = true)
    (hv2 : (is_suitable_user_key n2 && is_ascii n2) = true)
    (hne : n1 ≠ n2)
    (hf1 : c.containsName n1 = false) (hf2 : c.containsName n2 = false)
    (hshape : (s.contains 0 || decide (31 < s.length)) = false)
    (hhash : dictLookup c.hashStore (defaultSchemaHash s d ns vs) = none) :
    ∃ c1 m1 c2 m2,
      c.init_arrayset n1 (some s) (some d) none ns vs cs none = Except.ok (c1, m1) ∧
      c1.init_arrayset n2 (some s) (some d) none ns vs cs none = Except.ok (c2, m2) ∧
      dictLookup c1.hashStore (defaultSchemaHash s d ns vs) =
        some (defaultSchemaRec s d ns vs cs) ∧
      c2.hashStore = c1.hashStore ∧
      (c2.hashStore.filter (fun kv => decide (kv.1 = defaultSchemaHash s d ns vs))).length = 1 ∧
      c2.containsName n1 = true ∧ c2.containsName n2 = true ∧
      storeGet c2.dataStore (arrayset_record_schema_db_key_from_raw_key n1) =
        some (StoreVal.schema (defaultSchemaRec s d ns vs cs)) ∧
      storeGet c2.dataStore (arrayset_record_schema_db_key_from_raw_key n2) =
        some (StoreVal.schema (defaultSchemaRec s d ns vs cs)) := by
  have h1 := init_arrayset_ok c n1 s d ns vs cs hcon hv1 hf1 hshape
  have harr1 : (initResultCatalog c n1 s d ns vs cs).arraysets =
      dictInsert c.arraysets n1 (defaultModifier n1 s d ns vs cs) := rfl
  have hhs1 : (initResultCatalog c n1 s d ns vs cs).hashStore =
      dictInsert c.hashStore (defaultSchemaHash s d ns vs) (defaultSchemaRec s d ns vs cs) := by
    simp [initResultCatalog, hhash]
  have hcon1 : (initResultCatalog c n1 s d ns vs cs).anyIsConman = false := by
    rw [anyIsConman_false_iff] at hcon ⊢
    constructor
    · exact hcon.1
    · intro kv hkv
      rw [harr1] at hkv
      rcases mem_dictInsert _ _ _ _ hkv with hm | he
      · exact hcon.2 kv hm
      · rw [he]
        cases cs <;>
          simp [defaultModifier, Sample_generate_writer, Subsample_generate_writer,
            Accessor.conman]
  have hf2' : (initResultCatalog c n1 s d ns vs cs).containsName n2 = false := by
    unfold Arraysets.containsName at hf2 ⊢
    rw [harr1, dictLookup_insert_ne c.arraysets n1 n2 _ (fun h => hne h.symm)]
    exact hf2
  have h2 := init_arrayset_ok (initResultCatalog c n1 s d ns vs cs) n2 s d ns vs cs
    hcon1 hv2 hf2' hshape
  have hl1 : dictLookup (initResultCatalog c n1 s d ns vs cs).hashStore
      (defaultSchemaHash s d ns vs) = some (defaultSchemaRec s d ns vs cs) := by
    rw [hhs1]
    exact dictLookup_insert_self _ _ _
  have hhs2 : (initResultCatalog (initResultCatalog c n1 s d ns vs cs) n2 s d ns vs cs).hashStore =
      (initResultCatalog c n1 s d ns vs cs).hashStore := by
    show (if (dictLookup (initResultCatalog c n1 s d ns vs cs).hashStore
          (defaultSchemaHash s d ns vs)).isSome = true
        then (initResultCatalog c n1 s d ns vs cs).hashStore
        else dictInsert (initResultCatalog c n1 s d ns vs cs).hashStore
          (defaultSchemaHash s d ns vs) (defaultSchemaRec s d ns vs cs)) =
      (initResultCatalog c n1 s d ns vs cs).hashStore
    rw [hl1]
    simp
  have hkey12 : arrayset_record_schema_db_key_from_raw_key n1 ≠
      arrayset_record_schema_db_key_from_raw_key n2 :=
    fun h => hne (schemaKey_inj n1 n2 h)
  refine ⟨initResultCatalog c n1 s d ns vs cs, defaultModifier n1 s d ns vs cs,
    initResultCatalog (initResultCatalog c n1 s d ns vs cs) n2 s d ns vs cs,
    defaultModifier n2 s d ns vs cs, h1, h2, hl1, hhs2, ?_, ?_, ?_, ?_, ?_⟩
  · rw [hhs2, hhs1, dictInsert_filter_singleton c.hashStore _ _ hhash]
    rfl
  · unfold Arraysets.containsName
    rw [show (initResultCatalog (initResultCatalog c n1 s d ns vs cs) n2 s d ns vs cs).arraysets =
      dictInsert (initResultCatalog c n1 s d ns vs cs).arraysets n2
        (defaultModifier n2 s d ns vs cs) from rfl]
    rw [dictLookup_insert_ne _ _ _ _ hne, harr1, dictLookup_insert_self]
    rfl
  · unfold Arraysets.containsName
    rw [show (initResultCatalog (initResultCatalog c n1 s d ns vs cs) n2 s d ns vs cs).arraysets =
      dictInsert (initResultCatalog c n1 s d ns vs cs).arraysets n2
        (defaultModifier n2 s d ns vs cs) from rfl]
    rw [dictLookup_insert_self]
    rfl
  · rw [show (initResultCatalog (initResultCatalog c n1 s d ns vs cs) n2 s d ns vs cs).dataStore =
      storePut (initResultCatalog c n1 s d ns vs cs).dataStore
        (arrayset_record_schema_db_key_from_raw_key n2)
        (StoreVal.schema (defaultSchemaRec s d ns vs cs)) from rfl]
    rw [storeGet_put_ne _ _ _ _ hkey12]
    exact storeGet_put_self _ _ _
  · exact storeGet_put_self _ _ _

/-- C3 witness: two registrations with byte-identical descriptors under the
names `x` and `y` on the empty fixture catalog. -/
theorem init_arrayset_schema_dedup_witness :
    ∃ c1 m1 c2 m2,
      wcat0.init_arrayset "x" (some [2]) (some 5) none true false false none =
        Except.ok (c1, m1) ∧
      c1.init_arrayset "y" (some [2]) (some 5) none true false false none =
        Except.ok (c2, m2) ∧
      dictLookup c1.hashStore (defaultSchemaHash [2] 5 true false) =
        some (defaultSchemaRec [2] 5 true false false) ∧
      c2.hashStore = c1.hashStore ∧
      (c2.hashStore.filter (fun kv => decide (kv.1 = defaultSchemaHash [2] 5 true false))).length = 1 ∧
      c2.containsName "x" = true ∧ c2.containsName "y" = true ∧
      storeGet c2.dataStore (arrayset_record_schema_db_key_from_raw_key "x") =
        some (StoreVal.schema (defaultSchemaRec [2] 5 true false false)) ∧
      storeGet c2.dataStore (arrayset_record_schema_db_key_from_raw_key "y") =
        some (StoreVal.schema (defaultSchemaRec [2] 5 true false false)) :=
  init_arrayset_schema_dedup wcat0 "x" "y" [2] 5 true false false rfl (by decide)
    (by decide) (by decide) rfl rfl (by decide) rfl

/-- C4: for an existing arrayset name (well-formed, in a catalog with
distinct names, over a key-sorted records store), `delete` removes the name
from the catalog mapping — containment and iteration no longer show it —
leaves the records store holding exactly the records whose key neither lies
in that arrayset's record-count key range (the contiguous prefix scan from
the range start key) nor is its schema key, and keeps every record of every
other (well-formed, differently named) arrayset, range-keyed records and
schema record alike — including an arrayset whose name shares a string
prefix, such as `x2` when `x` is deleted. -/
theorem delete_removes_exact_range (c : Arraysets) (name : String)
    (hcon : c.anyIsConman = false)
    (hvname : is_suitable_user_key name = true)
    (hmem : c.containsName name = true)
    (hnd : (c.arraysets.map Prod.fst).Nodup)
    (hsorted : c.dataStore.Pairwise (fun x y => keyLt x.1 y.1 = true)) :
    ∃ c', c.delete name = Except.ok (c', name) ∧
      c'.containsName name = false ∧
      name ∉ c'.arraysets.map Prod.fst ∧
      c'.dataStore = (c.dataStore.filter
          (fun kv => !(List.isPrefixOf (arrayset_record_count_range_key name) kv.1))).filter
        (fun kv => !(decide (kv.1 = arrayset_record_schema_db_key_from_raw_key name))) ∧
      (∀ other, is_suitable_user_key other = true → other ≠ name →
        (∀ kv ∈ c.dataStore,
          List.isPrefixOf (arrayset_record_count_range_key other) kv.1 = true →
          kv ∈ c'.dataStore) ∧
        (∀ kv ∈ c.dataStore,
          kv.1 = arrayset_record_schema_db_key_from_raw_key other → kv ∈ c'.dataStore)) := by
  have hdel : c.delete name = Except.ok
      ({ c with arraysets := dictRemove c.arraysets name,
                dataStore := storeDeleteKey
                  (scanDeleteRange (arrayset_record_count_range_key name) c.dataStore)
                  (arrayset_record_schema_db_key_from_raw_key name) }, name) := by
    simp [Arraysets.delete, hcon, hmem]
  have hscan := scanDeleteRange_eq_filter (arrayset_record_count_range_key name)
    c.dataStore hsorted
  have hpw2 : ((c.dataStore.filter
      (fun kv => !(List.isPrefixOf (arrayset_record_count_range_key name) kv.1))).Pairwise
      (fun x y => keyLt x.1 y.1 = true)) :=
    List.Pairwise.sublist (List.filter_sublist _) hsorted
  have hstore : storeDeleteKey
      (scanDeleteRange (arrayset_record_count_range_key name) c.dataStore)
      (arrayset_record_schema_db_key_from_raw_key name) =
      (c.dataStore.filter
        (fun kv => !(List.isPrefixOf (arrayset_record_count_range_key name) kv.1))).filter
      (fun kv => !(decide (kv.1 = arrayset_record_schema_db_key_from_raw_key name))) := by
    rw [hscan]
    exact storeDeleteKey_eq_filter _ _ hpw2
  have hnotmem : name ∉ (dictRemove c.arraysets name).map Prod.fst :=
    dictRemove_not_mem c.arraysets name hnd
  refine ⟨_, hdel, ?_, hnotmem, hstore, ?_⟩
  · show (dictLookup (dictRemove c.arraysets name) name).isSome = false
    rw [dictLookup_eq_none_of_not_mem _ _ hnotmem]
    rfl
  · intro other hvo hno
    constructor
    · intro kv hkv hpre
      show kv ∈ storeDeleteKey
        (scanDeleteRange (arrayset_record_count_range_key name) c.dataStore)
        (arrayset_record_schema_db_key_from_raw_key name)
      rw [hstore]
      refine List.mem_filter.mpr ⟨List.mem_filter.mpr ⟨hkv, ?_⟩, ?_⟩
      · cases hrp : List.isPrefixOf (arrayset_record_count_range_key name) kv.1
        · rfl
        · exact absurd (rangeKey_prefix_inj other name kv.1 hvo hvname hpre hrp) hno
      · cases hke : decide (kv.1 = arrayset_record_schema_db_key_from_raw_key name)
        · rfl
        · have hke' := of_decide_eq_true hke
          rw [hke'] at hpre
          rw [rangeKey_not_pre_schemaKey other name] at hpre
          exact absurd hpre (by simp)
    · intro kv hkv hke
      show kv ∈ storeDeleteKey
        (scanDeleteRange (arrayset_record_count_range_key name) c.dataStore)
        (arrayset_record_schema_db_key_from_raw_key name)
      rw [hstore]
      refine List.mem_filter.mpr ⟨List.mem_filter.mpr ⟨hkv, ?_⟩, ?_⟩
      · cases hrp : List.isPrefixOf (arrayset_record_count_range_key name) kv.1
        · rfl
        · rw [hke, rangeKey_not_pre_schemaKey name other] at hrp
          exact absurd hrp (by simp)
      · cases hke2 : decide (kv.1 = arrayset_record_schema_db_key_from_raw_key name)
        · rfl
        · have hke2' := of_decide_eq_true hke2
          rw [hke] at hke2'
          exact absurd (schemaKey_inj other name hke2') hno

/-- C4 witness: deleting `x` from the fixture catalog holding `x` and the
prefix-sharing arrayset `x2` with one range record each. -/
theorem delete_removes_exact_range_witness :
    ∃ c', wcatX.delete "x" = Except.ok (c', "x") ∧
      c'.containsName "x" = false ∧
      "x" ∉ c'.arraysets.map Prod.fst ∧
      c'.dataStore = (wcatX.dataStore.filter
          (fun kv => !(List.isPrefixOf (arrayset_record_count_range_key "x") kv.1))).filter
        (fun kv => !(decide (kv.1 = arrayset_record_schema_db_key_from_raw_key "x"))) ∧
      (∀ other, is_suitable_user_key other = true → other ≠ "x" →
        (∀ kv ∈ wcatX.dataStore,
          List.isPrefixOf (arrayset_record_count_range_key other) kv.1 = true →
          kv ∈ c'.dataStore) ∧
        (∀ kv ∈ wcatX.dataStore,
          kv.1 = arrayset_record_schema_db_key_from_raw_key other → kv ∈ c'.dataStore)) :=
  delete_removes_exact_range wcatX "x" rfl (by decide) rfl (by decide) (by decide)

/-- C9: reconstruction factories.  Given writer/reader generators whose
successful results are write-bound resp. read-bound accessors of the
requested variant: a staging-store catalog built over N discovered schema
descriptors is write-mode with exactly N accessors, pointwise named after and
dispatched (Sample/Subsample) per each descriptor's `contains_subsamples`
flag and write-bound; a commit-store catalog is read-mode with exactly N
read-bound accessors; when every generation succeeds construction succeeds,
and when any descriptor's generation fails, construction as a whole returns
an error and no partial catalog. -/
theorem factory_reconstruction
    (genW genR : Variant → String → SchemaRec → Except PyError Accessor)
    (specs : List (String × SchemaRec)) (ds : List (Key × StoreVal))
    (hstore : List (SchemaHash × SchemaRec))
    (hW : ∀ v n s a, genW v n s = Except.ok a → a.mode = Mode.a ∧ a.variant = v)
    (hR : ∀ v n s a, genR v n s = Except.ok a → a.mode = Mode.r ∧ a.variant = v) :
    (∀ c, Arraysets.from_staging_area genW specs ds hstore = Except.ok c →
      c.mode = Mode.a ∧ c.arraysets.length = specs.length ∧
      List.Forall₂ (fun ns na => na.1 = ns.1 ∧ na.2.mode = Mode.a ∧
        na.2.variant = Arraysets.dispatchVariant ns.2) specs c.arraysets) ∧
    (∀ c, Arraysets.from_commit genR specs ds hstore = Except.ok c →
      c.mode = Mode.r ∧ c.arraysets.length = specs.length ∧
      List.Forall₂ (fun ns na => na.1 = ns.1 ∧ na.2.mode = Mode.r ∧
        na.2.variant = Arraysets.dispatchVariant ns.2) specs c.arraysets) ∧
    ((∀ ns ∈ specs, ∃ a, genW (Arraysets.dispatchVariant ns.2) ns.1 ns.2 = Except.ok a) →
      ∃ c, Arraysets.from_staging_area genW specs ds hstore = Except.ok c) ∧
    ((∀ ns ∈ specs, ∃ a, genR (Arraysets.dispatchVariant ns.2) ns.1 ns.2 = Except.ok a) →
      ∃ c, Arraysets.from_commit genR specs ds hstore = Except.ok c) ∧
    (∀ ns ∈ specs, (∀ a, ¬(genW (Arraysets.dispatchVariant ns.2) ns.1 ns.2 = Except.ok a)) →
      ∃ e, Arraysets.from_staging_area genW specs ds hstore = Except.error e) ∧
    (∀ ns ∈ specs, (∀ a, ¬(genR (Arraysets.dispatchVariant ns.2) ns.1 ns.2 = Except.ok a)) →
      ∃ e, Arraysets.from_commit genR specs ds hstore = Except.error e) := by
  refine ⟨?_, ?_, ?_, ?_, ?_, ?_⟩
  · intro c hc
    unfold Arraysets.from_staging_area at hc
    cases hb : Arraysets.buildAccessors genW specs with
    | error e => rw [hb] at hc; cases hc
    | ok l =>
      rw [hb] at hc
      cases hc
      have hf2 := buildAccessors_ok_forall2 genW
        (fun v a => a.mode = Mode.a ∧ a.variant = v) hW specs l hb
      exact ⟨rfl, (List.Forall₂.length_eq hf2).symm, hf2⟩
  · intro c hc
    unfold Arraysets.from_commit at hc
    cases hb : Arraysets.buildAccessors genR specs with
    | error e => rw [hb] at hc; cases hc
    | ok l =>
      rw [hb] at hc
      cases hc
      have hf2 := buildAccessors_ok_forall2 genR
        (fun v a => a.mode = Mode.r ∧ a.variant = v) hR specs l hb
      exact ⟨rfl, (List.Forall₂.length_eq hf2).symm, hf2⟩
  · intro hall
    obtain ⟨l, hl⟩ := buildAccessors_ok_of_all genW specs hall
    refine ⟨{ mode := Mode.a, arraysets := l, isConmanCounter := 0, dataStore := ds,
              hashStore := hstore, nextSampleId := 0 }, ?_⟩
    unfold Arraysets.from_staging_area
    rw [hl]
  · intro hall
    obtain ⟨l, hl⟩ := buildAccessors_ok_of_all genR specs hall
    refine ⟨{ mode := Mode.r, arraysets := l, isConmanCounter := 0, dataStore := ds,
              hashStore := hstore, nextSampleId := 0 }, ?_⟩
    unfold Arraysets.from_commit
    rw [hl]
  · intro ns hns hfail
    obtain ⟨e, he⟩ := buildAccessors_error_of_mem genW specs ns hns hfail
    refine ⟨e, ?_⟩
    unfold Arraysets.from_staging_area
    rw [he]
  · intro ns hns hfail
    obtain ⟨e, he⟩ := buildAccessors_error_of_mem genR specs ns hns hfail
    refine ⟨e, ?_⟩
    unfold Arraysets.from_commit
    rw [he]

/-- C9 witness: the staging-store success clause applied to concrete
generators and a two-descriptor query result (one Sample, one Subsample). -/
theorem factory_reconstruction_witness :
    ∃ c, Arraysets.from_staging_area wgen [("a", testRec), ("b", testRecSub)] [] [] =
      Except.ok c :=
  (factory_reconstruction wgen rgen [("a", testRec), ("b", testRecSub)] [] []
    (fun v n s a h => by
      injection h with h'
      rw [← h']
      exact ⟨rfl, rfl⟩)
    (fun v n s a h => by
      injection h with h'
      rw [← h']
      exact ⟨rfl, rfl⟩)).2.2.1
    (fun ns _ => ⟨_, rfl⟩)

end Claims

end Hangar
